import Mathlib

/-!
Verification of the agent-demo core: the safe arithmetic evaluator
(`safe_calc`), the extraction heuristics (`extract_math_expression`,
`find_requested_timezones`), the planner text (`make_plan`) and the
dispatcher (`run_agent`) of `src/gradio/dashboard.py`, together with the
duplicated copies in `src/streamlit/dashboard.py`.

Modelling conventions:
* Python integers are arbitrary precision and are modelled as `ℤ`.
* Python floats are modelled as exact rationals (`ℚ`): the idealised
  real arithmetic the code performs, without IEEE-754 rounding, overflow
  or scientific-notation output.  Power operations whose exact value is
  irrational (fractional exponents) fall outside this model and are
  mapped to a dedicated model-boundary error.
* `bool` is kept as a separate tag because CPython treats `True`/`False`
  as instances of `int` (this matters for the evaluator's whitelist).
* Strings are Lean `String`s; Python `len`, `strip`, `lower`, `title`,
  `join` and membership tests are embedded below for the ASCII fragment
  the program manipulates.
-/

namespace AgentDemo

/-- Runtime numeric value of the evaluator: a Python `int`, `bool` or
`float` (the float modelled as an exact rational). -/
inductive PyNum
| intVal (n : ℤ)
| boolVal (b : Bool)
| floatVal (q : ℚ)
deriving DecidableEq, Repr

/-- Errors of the evaluation pipeline, corresponding to the Python
exceptions caught by `safe_calc`. -/
inductive EvalErr
| unsupported
| divZero (msg : String)
| synErr (msg : String)
| nonRationalValue
deriving DecidableEq, Repr

/-- Is the value a Python `float`? (`isinstance(v, float)`). -/
def PyNum.isFloat : PyNum → Bool
| .floatVal _ => true
| _ => false

/-- View of the value as a rational (floats verbatim, ints and bools
via the numeric coercion CPython applies in mixed arithmetic). -/
def PyNum.toQ : PyNum → ℚ
| .intVal n => (n : ℚ)
| .boolVal b => if b then 1 else 0
| .floatVal q => q

/-- View of the value as an integer; meaningful for `int`/`bool`
operands (the only ones reaching the integer paths below). -/
def PyNum.toZ : PyNum → ℤ
| .intVal n => n
| .boolVal b => if b then 1 else 0
| .floatVal q => ⌊q⌋

/-- Python `+` (`operator.add`): `int` results stay `int`, any `float`
operand makes the result `float`; `bool` operands degrade to `int`. -/
def pyAdd (a b : PyNum) : Except EvalErr PyNum :=
  if a.isFloat || b.isFloat then .ok (.floatVal (a.toQ + b.toQ))
  else .ok (.intVal (a.toZ + b.toZ))

/-- Python `-` (`operator.sub`). -/
def pySub (a b : PyNum) : Except EvalErr PyNum :=
  if a.isFloat || b.isFloat then .ok (.floatVal (a.toQ - b.toQ))
  else .ok (.intVal (a.toZ - b.toZ))

/-- Python `*` (`operator.mul`). -/
def pyMul (a b : PyNum) : Except EvalErr PyNum :=
  if a.isFloat || b.isFloat then .ok (.floatVal (a.toQ * b.toQ))
  else .ok (.intVal (a.toZ * b.toZ))

/-- Python `/` (`operator.truediv`): always real-valued; division by
zero raises `ZeroDivisionError` (messages as in CPython ≥ 3.12). -/
def pyDiv (a b : PyNum) : Except EvalErr PyNum :=
  if a.isFloat || b.isFloat then
    if b.toQ = 0 then .error (.divZero ("float division by zero"))
    else .ok (.floatVal (a.toQ / b.toQ))
  else
    if b.toZ = 0 then .error (.divZero ("division by zero"))
    else .ok (.floatVal ((a.toZ : ℚ) / (b.toZ : ℚ)))

/-- Python `//` (`operator.floordiv`): floor division, truncating toward
negative infinity; on `int` operands CPython computes exactly
`Int.fdiv`, on `float` operands `math.floor` of the true quotient. -/
def pyFloorDiv (a b : PyNum) : Except EvalErr PyNum :=
  if a.isFloat || b.isFloat then
    if b.toQ = 0 then .error (.divZero ("float floor division by zero"))
    else .ok (.floatVal ((⌊a.toQ / b.toQ⌋ : ℤ) : ℚ))
  else
    if b.toZ = 0 then .error (.divZero ("integer division by zero"))
    else .ok (.intVal (Int.fdiv a.toZ b.toZ))

/-- Python `%` (`operator.mod`): remainder of floor division, carrying
the sign of the divisor; `Int.fmod` on `int` operands and
`a - b * ⌊a / b⌋` on `float` operands. -/
def pyMod (a b : PyNum) : Except EvalErr PyNum :=
  if a.isFloat || b.isFloat then
    if b.toQ = 0 then .error (.divZero ("float modulo"))
    else .ok (.floatVal (a.toQ - b.toQ * ((⌊a.toQ / b.toQ⌋ : ℤ) : ℚ)))
  else
    if b.toZ = 0 then .error (.divZero ("integer modulo by zero"))
    else .ok (.intVal (Int.fmod a.toZ b.toZ))

/-- Python `**` (`operator.pow`): `int ** nonnegative int` stays `int`;
a negative exponent produces a `float` (raising `ZeroDivisionError` on
base zero); a `float` power with integral exponent is exact rational
exponentiation.  A fractional exponent generally has an irrational
(or complex) value, which the exact-rational model cannot represent:
such cases are mapped to the model-boundary error `nonRationalValue`. -/
def pyPow (a b : PyNum) : Except EvalErr PyNum :=
  if a.isFloat || b.isFloat then
    if b.toQ.den = 1 then
      if a.toQ = 0 ∧ b.toQ.num < 0 then
        .error (.divZero ("0.0 cannot be raised to a negative power"))
      else .ok (.floatVal (a.toQ ^ b.toQ.num))
    else .error .nonRationalValue
  else
    if 0 ≤ b.toZ then .ok (.intVal (a.toZ ^ b.toZ.toNat))
    else if a.toZ = 0 then
      .error (.divZero ("0.0 cannot be raised to a negative power"))
    else .ok (.floatVal ((a.toZ : ℚ) ^ b.toZ))

/-- Python unary `-` (`operator.neg`). -/
def pyNeg (a : PyNum) : Except EvalErr PyNum :=
  if a.isFloat then .ok (.floatVal (-a.toQ)) else .ok (.intVal (-a.toZ))

/-- Python unary `+` (`operator.pos`): the identity on numbers, except
that a `bool` operand is promoted to `int`. -/
def pyPos (a : PyNum) : Except EvalErr PyNum :=
  if a.isFloat then .ok (.floatVal a.toQ) else .ok (.intVal a.toZ)

/-- Literal constants of the Python AST (`ast.Constant` payloads) that
can occur in an `eval`-mode parse of the inputs in scope.  Complex
literals are left out of the model (no claim mentions them). -/
inductive PyConst
| intC (n : ℤ)
| floatC (q : ℚ)
| boolC (b : Bool)
| strC (s : String)
| noneC
deriving DecidableEq, Repr

/-- Binary operator kinds of `ast.BinOp` (`ast.Add`, …, including the
bitwise ones that are NOT in the whitelist `_ALLOWED_OPS`). -/
inductive BOp
| add | sub | mult | div | floordiv | mod | pow
| bitor | bitxor | bitand | lshift | rshift
deriving DecidableEq, Repr

/-- Unary operator kinds of `ast.UnaryOp` (including the two outside
the whitelist). -/
inductive UOp
| uadd | usub | invert | notOp
deriving DecidableEq, Repr

/-- Expression nodes of the Python AST fragment relevant to the
evaluator.  `name`, `call` and `compare` stand for `ast.Name`,
`ast.Call` and `ast.Compare`; the evaluator rejects those nodes without
inspecting their payload, so `call`'s argument list is elided to an
arity and `compare` keeps a single comparand, which loses nothing the
claims speak about. -/
inductive Expr
| const (c : PyConst)
| binop (l : Expr) (o : BOp) (r : Expr)
| unaryop (o : UOp) (e : Expr)
| name (id : String)
| call (f : Expr) (arity : ℕ)
| compare (l : Expr) (r : Expr)
deriving DecidableEq, Repr

/-- The `_ALLOWED_OPS` dictionary of the source, restricted to binary
operators: the whitelisted seven map to their `operator`-module
functions, everything else is absent. -/
def _ALLOWED_OPS_bin : BOp → Option (PyNum → PyNum → Except EvalErr PyNum)
| .add => some pyAdd
| .sub => some pySub
| .mult => some pyMul
| .div => some pyDiv
| .floordiv => some pyFloorDiv
| .mod => some pyMod
| .pow => some pyPow
| _ => none

/-- The unary-operator part of `_ALLOWED_OPS`. -/
def _ALLOWED_OPS_un : UOp → Option (PyNum → Except EvalErr PyNum)
| .usub => some pyNeg
| .uadd => some pyPos
| _ => none

/-- The inner `_eval` of `safe_calc`: structural recursion over the
parsed tree.  `ast.Constant` values pass the
`isinstance(node.value, (int, float))` test exactly when they are
`int`, `float` — or `bool`, since CPython's `bool` is a subclass of
`int`.  A `BinOp`/`UnaryOp` whose operator is in `_ALLOWED_OPS`
evaluates its operands left to right and applies the table entry; any
other node raises `ValueError("Unsupported expression.")`. -/
def _eval : Expr → Except EvalErr PyNum
| .const (.intC n) => .ok (.intVal n)
| .const (.floatC q) => .ok (.floatVal q)
| .const (.boolC b) => .ok (.boolVal b)
| .const (.strC _) => .error .unsupported
| .const .noneC => .error .unsupported
| .binop l o r =>
    match _ALLOWED_OPS_bin o with
    | some f => do
        let a ← _eval l
        let b ← _eval r
        f a b
    | none => .error .unsupported
| .unaryop o e =>
    match _ALLOWED_OPS_un o with
    | some f => do
        let a ← _eval e
        f a
    | none => .error .unsupported
| .name _ => .error .unsupported
| .call _ _ => .error .unsupported
| .compare _ _ => .error .unsupported

/-- Nodes the evaluator actually accepts: numeric or boolean constants
and the whitelisted operators (booleans slip through the `isinstance`
test as explained at `_eval`). -/
def acceptedNodes : Expr → Bool
| .const (.intC _) => true
| .const (.floatC _) => true
| .const (.boolC _) => true
| .const _ => false
| .binop l o r => (_ALLOWED_OPS_bin o).isSome && acceptedNodes l && acceptedNodes r
| .unaryop o e => (_ALLOWED_OPS_un o).isSome && acceptedNodes e
| .name _ => false
| .call _ _ => false
| .compare _ _ => false

/-- The whitelist exactly as the specification words it: numeric
literals only (no identifiers, no calls, no comparisons, no string or
BOOLEAN literals) combined by the seven binary and two unary
operators. -/
def specWhitelist : Expr → Bool
| .const (.intC _) => true
| .const (.floatC _) => true
| .const _ => false
| .binop l o r => (_ALLOWED_OPS_bin o).isSome && specWhitelist l && specWhitelist r
| .unaryop o e => (_ALLOWED_OPS_un o).isSome && specWhitelist e
| .name _ => false
| .call _ _ => false
| .compare _ _ => false

/-- Did the computation fail? -/
def isFailure {ε α : Type} : Except ε α → Bool
| .error _ => true
| .ok _ => false

/-- Characters stripped by Python `str.strip()` and matched by the
regex class `\s` (the ASCII fragment; the exotic Unicode spaces never
occur in the inputs in scope). -/
def isPySpace (c : Char) : Bool :=
  c == ' ' || c == '\t' || c == '\n' || c == '\r' ||
  c == Char.ofNat 11 || c == Char.ofNat 12

/-- Python `str.strip()` with no argument: drop leading and trailing
whitespace. -/
def pyStrip (s : String) : String :=
  String.mk (((s.data.dropWhile isPySpace).reverse.dropWhile isPySpace).reverse)

/-- Python `str.strip(chars)`: drop leading and trailing characters
belonging to the given set. -/
def pyStripChars (cs : List Char) (s : String) : String :=
  String.mk (((s.data.dropWhile (cs.contains ·)).reverse.dropWhile
    (cs.contains ·)).reverse)

/-- Decimal digits of a natural number, accumulator style (the
rendering CPython's `str(int)` produces). -/
def natDigitsGo : ℕ → ℕ → List Char → List Char
| 0, _, acc => acc
| fuel+1, n, acc =>
    let d := Char.ofNat (48 + n % 10)
    if n < 10 then d :: acc else natDigitsGo fuel (n / 10) (d :: acc)

/-- Decimal rendering of a natural number. -/
def natRepr (n : ℕ) : String := String.mk (natDigitsGo (n + 1) n [])

/-- Python `str` on an `int`. -/
def pyIntRepr (n : ℤ) : String :=
  if n < 0 then "-" ++ natRepr (-n).toNat else natRepr n.toNat

/-- Python `round` on a float restricted to ties-free use: round to the
nearest integer, ties to the even one (banker's rounding). -/
def pyRound (q : ℚ) : ℤ :=
  let f := ⌊q⌋
  let r := q - (f : ℚ)
  if r < 1/2 then f
  else if 1/2 < r then f + 1
  else if f % 2 = 0 then f else f + 1

/-- Fractional decimal digits of a rational in `[0, 1)`, at most `fuel`
of them, stopping early once the expansion terminates. -/
def fracDigitsGo : ℕ → ℚ → List Char
| 0, _ => []
| fuel+1, r =>
    if r = 0 then []
    else
      let r10 := r * 10
      let d := ⌊r10⌋
      Char.ofNat (48 + d.toNat) :: fracDigitsGo fuel (r10 - (d : ℚ))

/-- Python `str` on a float, idealised: sign, integer part, point,
fractional digits.  Exact whenever the decimal expansion terminates
within 17 digits (every concrete value in scope); CPython's
shortest-round-trip repr of non-terminating doubles and its
scientific notation for extreme magnitudes are outside the
exact-rational model. -/
def pyFloatRepr (q : ℚ) : String :=
  let sgn := if q < 0 then "-" else ""
  let aq := |q|
  let ip := ⌊aq⌋
  let ds := fracDigitsGo 17 (aq - (ip : ℚ))
  sgn ++ natRepr ip.toNat ++ "." ++ (if ds.isEmpty then "0" else String.mk ds)

/-- The `1e-12` threshold of `safe_calc` (as the exact rational the
literal denotes). -/
def nearIntEps : ℚ := 1 / 1000000000000

/-- The result formatting of `safe_calc`: a float within `1e-12` of
`round(val)` is replaced by that integer before `str` is applied. -/
def formatVal : PyNum → String
| .intVal n => pyIntRepr n
| .boolVal b => if b then "True" else "False"
| .floatVal q =>
    if |q - (pyRound q : ℚ)| < nearIntEps then pyIntRepr (pyRound q)
    else pyFloatRepr q

/-- Tokens of the arithmetic fragment of Python's `eval`-mode
grammar. -/
inductive Tok
| num (c : PyConst)
| idTok (s : String)
| plusT | minusT | starT | slashT | dstarT | dslashT
| percentT | lparT | rparT
deriving DecidableEq, Repr

/-- Value of a decimal digit string. -/
def digitsToNat (l : List Char) : ℕ :=
  l.foldl (fun a c => a * 10 + (c.toNat - 48)) 0

/-- Start character of a Python identifier (ASCII fragment). -/
def isIdentStart (c : Char) : Bool := c.isAlpha || c == '_'

/-- Continuation character of a Python identifier (ASCII fragment). -/
def isIdentChar (c : Char) : Bool := c.isAlphanum || c == '_'

/-- Tokenizer for the arithmetic fragment of CPython's lexer: decimal
integer and float literals (`12`, `12.`, `.5`, `1.25`), identifiers,
the nine operator/punctuation tokens, whitespace.  Underscored and
exponent literals, and every token class the claims never exercise
(strings, commas, bitwise/comparison operators, …) lex to an error
here where CPython would produce a token; the claims about such inputs
are settled at the tree level, not through this lexer. -/
def tokenizeGo : ℕ → List Char → Except String (List Tok)
| 0, _ => .error ("lexer out of fuel")
| _+1, [] => .ok []
| fuel+1, c :: cs =>
  if isPySpace c then tokenizeGo fuel cs
  else if c.isDigit then
    let ip := (c :: cs).takeWhile Char.isDigit
    match (c :: cs).dropWhile Char.isDigit with
    | '.' :: cs2 =>
        let fp := cs2.takeWhile Char.isDigit
        do
          let ts ← tokenizeGo fuel (cs2.dropWhile Char.isDigit)
          .ok (Tok.num (.floatC ((digitsToNat ip : ℚ) +
            (digitsToNat fp : ℚ) / ((10 : ℚ) ^ fp.length))) :: ts)
    | rest => do
        let ts ← tokenizeGo fuel rest
        .ok (Tok.num (.intC (digitsToNat ip)) :: ts)
  else if c == '.' then
    match cs with
    | d :: _ =>
        if d.isDigit then
          let fp := cs.takeWhile Char.isDigit
          do
            let ts ← tokenizeGo fuel (cs.dropWhile Char.isDigit)
            .ok (Tok.num (.floatC ((digitsToNat fp : ℚ) /
              ((10 : ℚ) ^ fp.length))) :: ts)
        else .error ("invalid syntax")
    | [] => .error ("invalid syntax")
  else if isIdentStart c then
    let idc := (c :: cs).takeWhile isIdentChar
    do
      let ts ← tokenizeGo fuel ((c :: cs).dropWhile isIdentChar)
      .ok (Tok.idTok (String.mk idc) :: ts)
  else if c == '*' then
    match cs with
    | '*' :: cs2 => do
        let ts ← tokenizeGo fuel cs2
        .ok (Tok.dstarT :: ts)
    | _ => do
        let ts ← tokenizeGo fuel cs
        .ok (Tok.starT :: ts)
  else if c == '/' then
    match cs with
    | '/' :: cs2 => do
        let ts ← tokenizeGo fuel cs2
        .ok (Tok.dslashT :: ts)
    | _ => do
        let ts ← tokenizeGo fuel cs
        .ok (Tok.slashT :: ts)
  else if c == '+' then do
    let ts ← tokenizeGo fuel cs
    .ok (Tok.plusT :: ts)
  else if c == '-' then do
    let ts ← tokenizeGo fuel cs
    .ok (Tok.minusT :: ts)
  else if c == '%' then do
    let ts ← tokenizeGo fuel cs
    .ok (Tok.percentT :: ts)
  else if c == '(' then do
    let ts ← tokenizeGo fuel cs
    .ok (Tok.lparT :: ts)
  else if c == ')' then do
    let ts ← tokenizeGo fuel cs
    .ok (Tok.rparT :: ts)
  else .error ("invalid character")

/-- Tokenize a whole string (the fuel covers the input). -/
def tokenize (s : String) : Except String (List Tok) :=
  tokenizeGo (s.data.length + 1) s.data

mutual

/-- CPython grammar production `expr: term (('+'|'-') term)*` —
left-associative addition level. -/
def pArith : ℕ → List Tok → Except String (Expr × List Tok)
| 0, _ => .error ("out of fuel")
| fuel+1, ts => do
    let (e, r) ← pTerm fuel ts
    pArithRest fuel e r

/-- Iteration of the addition level. -/
def pArithRest : ℕ → Expr → List Tok → Except String (Expr × List Tok)
| 0, _, _ => .error ("out of fuel")
| fuel+1, acc, ts =>
  match ts with
  | .plusT :: r => do
      let (e, r2) ← pTerm fuel r
      pArithRest fuel (.binop acc .add e) r2
  | .minusT :: r => do
      let (e, r2) ← pTerm fuel r
      pArithRest fuel (.binop acc .sub e) r2
  | _ => .ok (acc, ts)

/-- Production `term: factor (('*'|'/'|'//'|'%') factor)*`. -/
def pTerm : ℕ → List Tok → Except String (Expr × List Tok)
| 0, _ => .error ("out of fuel")
| fuel+1, ts => do
    let (e, r) ← pFactor fuel ts
    pTermRest fuel e r

/-- Iteration of the multiplication level. -/
def pTermRest : ℕ → Expr → List Tok → Except String (Expr × List Tok)
| 0, _, _ => .error ("out of fuel")
| fuel+1, acc, ts =>
  match ts with
  | .starT :: r => do
      let (e, r2) ← pFactor fuel r
      pTermRest fuel (.binop acc .mult e) r2
  | .slashT :: r => do
      let (e, r2) ← pFactor fuel r
      pTermRest fuel (.binop acc .div e) r2
  | .dslashT :: r => do
      let (e, r2) ← pFactor fuel r
      pTermRest fuel (.binop acc .floordiv e) r2
  | .percentT :: r => do
      let (e, r2) ← pFactor fuel r
      pTermRest fuel (.binop acc .mod e) r2
  | _ => .ok (acc, ts)

/-- Production `factor: ('+'|'-') factor | power` — unary sign binds
looser than `**` on its left, tighter on its right. -/
def pFactor : ℕ → List Tok → Except String (Expr × List Tok)
| 0, _ => .error ("out of fuel")
| fuel+1, .plusT :: r => do
    let (e, r2) ← pFactor fuel r
    .ok (.unaryop .uadd e, r2)
| fuel+1, .minusT :: r => do
    let (e, r2) ← pFactor fuel r
    .ok (.unaryop .usub e, r2)
| fuel+1, ts => pPower fuel ts

/-- Production `power: atom ['**' factor]` — right-associative. -/
def pPower : ℕ → List Tok → Except String (Expr × List Tok)
| 0, _ => .error ("out of fuel")
| fuel+1, ts => do
    let (a, r) ← pAtom fuel ts
    match r with
    | .dstarT :: r2 => do
        let (b, r3) ← pFactor fuel r2
        .ok (.binop a .pow b, r3)
    | _ => .ok (a, r)

/-- Production `atom: NUMBER | NAME | '(' expr ')'`, with the keyword
names `True`/`False`/`None` parsed as constants exactly as CPython's
grammar does. -/
def pAtom : ℕ → List Tok → Except String (Expr × List Tok)
| 0, _ => .error ("out of fuel")
| _+1, .num c :: r => .ok (.const c, r)
| _+1, .idTok s :: r =>
    if s = "True" then .ok (.const (.boolC true), r)
    else if s = "False" then .ok (.const (.boolC false), r)
    else if s = "None" then .ok (.const .noneC, r)
    else .ok (.name s, r)
| fuel+1, .lparT :: r => do
    let (e, r2) ← pArith fuel r
    match r2 with
    | .rparT :: r3 => .ok (e, r3)
    | _ => .error ("invalid syntax")
| _+1, _ => .error ("invalid syntax")

end

/-- The embedding of `ast.parse(expr, mode = eval)` for the arithmetic
fragment: lex, parse one expression with the precedence ladder above,
require the input to be exhausted. -/
def pyParse (s : String) : Except String Expr := do
  let ts ← tokenize s
  if ts.isEmpty then .error ("invalid syntax")
  else
    let (e, r) ← pArith (ts.length * 6 + 6) ts
    if r.isEmpty then .ok e else .error ("invalid syntax")

/-- Message with which `safe_calc` reports a caught exception. -/
def errMsg : EvalErr → String
| .unsupported => "Unsupported expression."
| .divZero m => m
| .synErr m => m
| .nonRationalValue => "value outside the exact-rational model"

/-- The evaluation pipeline of `safe_calc` after the length check:
parse, walk with `_eval`. -/
def calcCore (expr : String) : Except EvalErr PyNum :=
  match pyParse expr with
  | .error m => .error (.synErr m)
  | .ok t => _eval t

/-- The `safe_calc` tool: strip, refuse inputs longer than 200
characters, otherwise parse and evaluate, formatting near-integer
floats as integers, and converting every caught exception into a
`"Could not evaluate: …"` result string. -/
def safe_calc (expr : String) : String :=
  let e := pyStrip expr
  if e.length > 200 then "Expression too long."
  else
    match calcCore e with
    | .ok v => formatVal v
    | .error err => "Could not evaluate: " ++ errMsg err

/-- Does `hay` start with `needle`? -/
def startsWithChars : List Char → List Char → Bool
| [], _ => true
| _ :: _, [] => false
| a :: as, b :: bs => a == b && startsWithChars as bs

/-- Does `hay` contain `needle` as a contiguous substring? -/
def containsChars (n : List Char) : List Char → Bool
| [] => startsWithChars n []
| c :: cs => startsWithChars n (c :: cs) || containsChars n cs

/-- Python's `needle in hay` on strings. -/
def containsSub (needle hay : String) : Bool :=
  containsChars needle.data hay.data

/-- Python `str.lower()` (ASCII fragment). -/
def pyLower (s : String) : String := String.mk (s.data.map Char.toLower)

/-- Worker for `str.title()`: a letter is uppercased after a
non-letter, lowercased after a letter. -/
def pyTitleGo : Bool → List Char → List Char
| _, [] => []
| prevAlpha, c :: cs =>
  if c.isAlpha then
    (if prevAlpha then c.toLower else c.toUpper) :: pyTitleGo true cs
  else c :: pyTitleGo false cs

/-- Python `str.title()` (ASCII fragment). -/
def pyTitle (s : String) : String := String.mk (pyTitleGo false s.data)

/-- Python `sep.join(parts)`. -/
def pyJoin (sep : String) : List String → String
| [] => ""
| [a] => a
| a :: b :: rest => a ++ sep ++ pyJoin sep (b :: rest)

/-- The `CITY_TZ` table, as the ordered association list the Python
dict literal denotes (dicts preserve insertion order). -/
def CITY_TZ : List (String × String) := [
  ("johannesburg", "Africa/Johannesburg"),
  ("cape town", "Africa/Johannesburg"),
  ("durban", "Africa/Johannesburg"),
  ("london", "Europe/London"),
  ("paris", "Europe/Paris"),
  ("berlin", "Europe/Berlin"),
  ("new york", "America/New_York"),
  ("san francisco", "America/Los_Angeles"),
  ("los angeles", "America/Los_Angeles"),
  ("tokyo", "Asia/Tokyo"),
  ("singapore", "Asia/Singapore"),
  ("sydney", "Australia/Sydney")]

/-- The `find_requested_timezones` heuristic: lower-case the text; if
it mentions "time" or "date", collect the `CITY_TZ` entries whose city
name occurs as a substring, in table order; with the keyword present
but no city hit, fall back to one request for the caller's default
zone. -/
def find_requested_timezones (text : String) (default_tz : String) :
    List (String × String) :=
  let lower := pyLower text
  let kw := containsSub ("time") lower || containsSub ("date") lower
  let hits := if kw then CITY_TZ.filter (fun p => containsSub p.1 lower) else []
  if hits.isEmpty && kw then [("your timezone", default_tz)] else hits

/-- Character class of the math regex
`(?P<expr>[-+*\/().\d\s]\x7b3,\x7d)`. -/
def isMathChar (c : Char) : Bool :=
  c.isDigit || c == '+' || c == '-' || c == '*' || c == '/' ||
  c == '(' || c == ')' || c == '.' || isPySpace c

/-- Maximal runs of math-class characters, left to right (`cur` holds
the current run reversed), exactly the matches `re.finditer` produces
for the greedy class repetition once filtered by the length bound. -/
def runsGo : List Char → List Char → List (List Char)
| cur, [] => if cur.isEmpty then [] else [cur.reverse]
| cur, c :: cs =>
  if isMathChar c then runsGo (c :: cur) cs
  else if cur.isEmpty then runsGo [] cs
  else cur.reverse :: runsGo [] cs

/-- All maximal math-class runs of a string. -/
def mathRuns (s : String) : List (List Char) := runsGo [] s.data

/-- The `extract_math_expression` heuristic: the candidates are the
whitespace-stripped maximal runs of at least three math-class
characters; the first one containing a digit and one of `+ - * /` is
returned with the characters of `" .,:;!?"` stripped from both
ends. -/
def extract_math_expression (text : String) : Option String :=
  let candidates := ((mathRuns text).filter (fun r => 3 ≤ r.length)).map
    (fun r => pyStrip (String.mk r))
  match candidates.find? (fun c => c.data.any Char.isDigit &&
      c.data.any (fun ch => ch == '+' || ch == '-' || ch == '*' || ch == '/')) with
  | some c => some (pyStripChars (" .,:;!?".data) c)
  | none => none

/-- The fixed bullet list of the gradio `make_plan`. -/
def planBullets : List String := [
  "Clarify the goal + success criteria (1–2 sentences).",
  "List the smallest demo-able user flow (3–5 steps).",
  "Pick 1–2 tools/APIs (or mock them) to support the flow.",
  "Build the UI skeleton first (inputs, buttons, results).",
  "Wire the agent loop (decide → tool → observe → answer).",
  "Add a short \x27demo script\x27 and 2–3 example prompts."]

/-- The `make_plan` tool: a fixed multi-line bullet list; the goal text
is accepted but ignored. -/
def make_plan (_goal : String) : String :=
  "Here’s a quick plan:\n" ++
    pyJoin ("\n") (planBullets.map (fun b => "- " ++ b))

/-- One `ToolStep` record of the dispatcher's trace. -/
structure ToolStep where
  tool : String
  input : String
  result : String
deriving DecidableEq, Repr

/-- Keyword list of the plan-intent check. -/
def planKeywords : List String := ["plan", "steps", "checklist", "todo", "to-do"]

/-- U+1F552, the clock emoji prefixing timezone sections. -/
def clockEmoji : String := String.mk [Char.ofNat 0x1F552]

/-- U+1F9EE, the abacus emoji prefixing the calculator section. -/
def calcEmoji : String := String.mk [Char.ofNat 0x1F9EE]

/-- The fixed help/usage message appended when no tool produced a
section. -/
def helpMsg : String :=
  "I’m a tiny agent demo. I can use tools like **calculator**, " ++
  "**time lookup**, and a **planner**.\n\n" ++
  "Try:\n" ++
  "- `What time is it in Tokyo and London?`\n" ++
  "- `What is (12*7)/3?`\n" ++
  "- `Give me a plan to demo an agentic model in 24 hours`"

/-- The `run_agent` dispatcher.  The external clock lookup `get_time`
(the only operation reading wall-clock state) is passed in as the
function `clock` from zone id to result string.  The three phases run
unconditionally in pipeline order, each appending its tool steps and
reply sections; if no section was produced, the help message becomes
the reply. -/
def run_agent (clock : String → String) (user_text : String)
    (default_tz : String) : String × List ToolStep :=
  let hits := find_requested_timezones user_text default_tz
  let steps1 := hits.map (fun p => ToolStep.mk ("get_time") p.2 (clock p.2))
  let parts1 := hits.map
    (fun p => clockEmoji ++ " **" ++ pyTitle p.1 ++ "**: " ++ clock p.2)
  let steps2 :=
    match extract_math_expression user_text with
    | some e => [ToolStep.mk ("calculator") e (safe_calc e)]
    | none => []
  let parts2 :=
    match extract_math_expression user_text with
    | some e => [calcEmoji ++ " **" ++ e ++ "** = `" ++ safe_calc e ++ "`"]
    | none => []
  let lower := pyLower user_text
  let steps3 :=
    if planKeywords.any (fun k => containsSub k lower) then
      [ToolStep.mk ("make_plan") user_text (make_plan user_text)]
    else []
  let parts3 :=
    if planKeywords.any (fun k => containsSub k lower) then
      [make_plan user_text]
    else []
  let parts := parts1 ++ parts2 ++ parts3
  let steps := steps1 ++ steps2 ++ steps3
  (pyJoin ("\n\n") (if parts.isEmpty then [helpMsg] else parts), steps)

namespace Streamlit

/-!
The second copy of the tool logic, from `src/streamlit/dashboard.py`.
The code is a line-for-line duplicate of the gradio copy except that
every non-ASCII character of its string literals is encoding-corrupted
(the file stores mojibake: e.g. three characters U+201A U+00C4 U+00F4
where the gradio file has the single character U+2019).  The corrupted
sequences are spelled out below by code point, exactly as the file
stores them.
-/

/-- The streamlit file's mojibake for `’` (U+2019). -/
def sApos : String := String.mk [Char.ofNat 0x201A, Char.ofNat 0xC4, Char.ofNat 0xF4]

/-- The streamlit file's mojibake for `–` (U+2013). -/
def sDash : String := String.mk [Char.ofNat 0x201A, Char.ofNat 0xC4, Char.ofNat 0xEC]

/-- The streamlit file's mojibake for `→` (U+2192). -/
def sArrow : String := String.mk [Char.ofNat 0x201A, Char.ofNat 0xDC, Char.ofNat 0xED]

/-- The streamlit file's mojibake for the clock emoji (U+1F552). -/
def sClockEmoji : String :=
  String.mk [Char.ofNat 0xF8FF, Char.ofNat 0xFC, Char.ofNat 0xEF, Char.ofNat 0xED]

/-- The streamlit file's mojibake for the abacus emoji (U+1F9EE). -/
def sCalcEmoji : String :=
  String.mk [Char.ofNat 0xF8FF, Char.ofNat 0xFC, Char.ofNat 0xDF, Char.ofNat 0xC6]

/-- The streamlit `_ALLOWED_OPS`, binary part (same dict literal). -/
def _ALLOWED_OPS_bin : BOp → Option (PyNum → PyNum → Except EvalErr PyNum)
| .add => some pyAdd
| .sub => some pySub
| .mult => some pyMul
| .div => some pyDiv
| .floordiv => some pyFloorDiv
| .mod => some pyMod
| .pow => some pyPow
| _ => none

/-- The streamlit `_ALLOWED_OPS`, unary part. -/
def _ALLOWED_OPS_un : UOp → Option (PyNum → Except EvalErr PyNum)
| .usub => some pyNeg
| .uadd => some pyPos
| _ => none

/-- The streamlit copy of the inner `_eval`. -/
def _eval : Expr → Except EvalErr PyNum
| .const (.intC n) => .ok (.intVal n)
| .const (.floatC q) => .ok (.floatVal q)
| .const (.boolC b) => .ok (.boolVal b)
| .const (.strC _) => .error .unsupported
| .const .noneC => .error .unsupported
| .binop l o r =>
    match _ALLOWED_OPS_bin o with
    | some f => do
        let a ← _eval l
        let b ← _eval r
        f a b
    | none => .error .unsupported
| .unaryop o e =>
    match _ALLOWED_OPS_un o with
    | some f => do
        let a ← _eval e
        f a
    | none => .error .unsupported
| .name _ => .error .unsupported
| .call _ _ => .error .unsupported
| .compare _ _ => .error .unsupported

/-- The streamlit copy of the pretty-formatting lines of
`safe_calc`. -/
def formatVal : PyNum → String
| .intVal n => pyIntRepr n
| .boolVal b => if b then "True" else "False"
| .floatVal q =>
    if |q - (pyRound q : ℚ)| < nearIntEps then pyIntRepr (pyRound q)
    else pyFloatRepr q

/-- The streamlit copy of `safe_calc` (sharing only the host
facilities `str.strip`, `len` and `ast.parse`, which are the same
Python runtime for both files). -/
def safe_calc (expr : String) : String :=
  let e := pyStrip expr
  if e.length > 200 then "Expression too long."
  else
    match pyParse e with
    | .error m => "Could not evaluate: " ++ m
    | .ok t =>
      match _eval t with
      | .ok v => formatVal v
      | .error err => "Could not evaluate: " ++ errMsg err

/-- The streamlit copy of `CITY_TZ` (same dict literal). -/
def CITY_TZ : List (String × String) := [
  ("johannesburg", "Africa/Johannesburg"),
  ("cape town", "Africa/Johannesburg"),
  ("durban", "Africa/Johannesburg"),
  ("london", "Europe/London"),
  ("paris", "Europe/Paris"),
  ("berlin", "Europe/Berlin"),
  ("new york", "America/New_York"),
  ("san francisco", "America/Los_Angeles"),
  ("los angeles", "America/Los_Angeles"),
  ("tokyo", "Asia/Tokyo"),
  ("singapore", "Asia/Singapore"),
  ("sydney", "Australia/Sydney")]

/-- The streamlit copy of `find_requested_timezones`. -/
def find_requested_timezones (text : String) (default_tz : String) :
    List (String × String) :=
  let lower := pyLower text
  let kw := containsSub ("time") lower || containsSub ("date") lower
  let hits := if kw then CITY_TZ.filter (fun p => containsSub p.1 lower) else []
  if hits.isEmpty && kw then [("your timezone", default_tz)] else hits

/-- The streamlit copy of `extract_math_expression` (same `_MATH_RE`
literal). -/
def extract_math_expression (text : String) : Option String :=
  let candidates := ((mathRuns text).filter (fun r => 3 ≤ r.length)).map
    (fun r => pyStrip (String.mk r))
  match candidates.find? (fun c => c.data.any Char.isDigit &&
      c.data.any (fun ch => ch == '+' || ch == '-' || ch == '*' || ch == '/')) with
  | some c => some (pyStripChars (" .,:;!?".data) c)
  | none => none

/-- The streamlit bullet list: same text with every `–` and `→`
replaced by its mojibake. -/
def planBullets : List String := [
  "Clarify the goal + success criteria (1" ++ sDash ++ "2 sentences).",
  "List the smallest demo-able user flow (3" ++ sDash ++ "5 steps).",
  "Pick 1" ++ sDash ++ "2 tools/APIs (or mock them) to support the flow.",
  "Build the UI skeleton first (inputs, buttons, results).",
  "Wire the agent loop (decide " ++ sArrow ++ " tool " ++ sArrow ++
    " observe " ++ sArrow ++ " answer).",
  "Add a short \x27demo script\x27 and 2" ++ sDash ++ "3 example prompts."]

/-- The streamlit `make_plan`. -/
def make_plan (_goal : String) : String :=
  "Here" ++ sApos ++ "s a quick plan:\n" ++
    pyJoin ("\n") (planBullets.map (fun b => "- " ++ b))

/-- The streamlit help message (same text, corrupted apostrophe). -/
def helpMsg : String :=
  "I" ++ sApos ++ "m a tiny agent demo. I can use tools like " ++
  "**calculator**, **time lookup**, and a **planner**.\n\n" ++
  "Try:\n" ++
  "- `What time is it in Tokyo and London?`\n" ++
  "- `What is (12*7)/3?`\n" ++
  "- `Give me a plan to demo an agentic model in 24 hours`"

/-- The streamlit copy of `run_agent` (it binds `label = city.title()`
before formatting, which changes nothing). -/
def run_agent (clock : String → String) (user_text : String)
    (default_tz : String) : String × List ToolStep :=
  let hits := find_requested_timezones user_text default_tz
  let steps1 := hits.map (fun p => ToolStep.mk ("get_time") p.2 (clock p.2))
  let parts1 := hits.map
    (fun p => sClockEmoji ++ " **" ++ pyTitle p.1 ++ "**: " ++ clock p.2)
  let steps2 :=
    match extract_math_expression user_text with
    | some e => [ToolStep.mk ("calculator") e (safe_calc e)]
    | none => []
  let parts2 :=
    match extract_math_expression user_text with
    | some e => [sCalcEmoji ++ " **" ++ e ++ "** = `" ++ safe_calc e ++ "`"]
    | none => []
  let lower := pyLower user_text
  let steps3 :=
    if planKeywords.any (fun k => containsSub k lower) then
      [ToolStep.mk ("make_plan") user_text (make_plan user_text)]
    else []
  let parts3 :=
    if planKeywords.any (fun k => containsSub k lower) then
      [make_plan user_text]
    else []
  let parts := parts1 ++ parts2 ++ parts3
  let steps := steps1 ++ steps2 ++ steps3
  (pyJoin ("\n\n") (if parts.isEmpty then [helpMsg] else parts), steps)

end Streamlit

/-!
Specification-side definitions.  These follow the WORDS of `spec.md`,
independently of the code path above, and exist to be compared with
the source-derived definitions in the claims' theorems.
-/

/-- Errors of the specification's evaluator contract. -/
inductive SpecErr
| specDivZero
| specUnsupported
| specNonRational
deriving DecidableEq, Repr

/-- Tag an arithmetic result the way the spec describes: integer
operands give an integer, any real operand makes the result real. -/
def tagArith (a b : PyNum) (q : ℚ) : PyNum :=
  if a.isFloat || b.isFloat then .floatVal q else .intVal ⌊q⌋

/-- Binary operators per the spec: standard arithmetic; `/` always
real-valued; `//` is `⌊a / b⌋` (truncation toward negative infinity);
`%` is `a - b * ⌊a / b⌋` (remainder with the divisor's sign); zero
divisors fail with `DivisionByZero`. -/
def specBin : BOp → PyNum → PyNum → Except SpecErr PyNum
| .add, a, b => .ok (tagArith a b (a.toQ + b.toQ))
| .sub, a, b => .ok (tagArith a b (a.toQ - b.toQ))
| .mult, a, b => .ok (tagArith a b (a.toQ * b.toQ))
| .div, a, b =>
    if b.toQ = 0 then .error .specDivZero
    else .ok (.floatVal (a.toQ / b.toQ))
| .floordiv, a, b =>
    if b.toQ = 0 then .error .specDivZero
    else .ok (tagArith a b ((⌊a.toQ / b.toQ⌋ : ℤ) : ℚ))
| .mod, a, b =>
    if b.toQ = 0 then .error .specDivZero
    else .ok (tagArith a b (a.toQ - b.toQ * ((⌊a.toQ / b.toQ⌋ : ℤ) : ℚ)))
| .pow, a, b =>
    if b.toQ.den = 1 then
      let e := b.toQ.num
      if a.toQ = 0 ∧ e < 0 then .error .specDivZero
      else if a.isFloat || b.isFloat || e < 0 then .ok (.floatVal (a.toQ ^ e))
      else .ok (.intVal (⌊a.toQ⌋ ^ e.toNat))
    else .error .specNonRational
| _, _, _ => .error .specUnsupported

/-- Unary operators per the spec: sign on the numeric value. -/
def specUn : UOp → PyNum → Except SpecErr PyNum
| .usub, a =>
    .ok (if a.isFloat then .floatVal (-a.toQ) else .intVal (-⌊a.toQ⌋))
| .uadd, a => .ok a
| _, _ => .error .specUnsupported

/-- The spec's evaluator: a pure structural recursive walk over the
whitelisted grammar, rejecting everything else. -/
def specEval : Expr → Except SpecErr PyNum
| .const (.intC n) => .ok (.intVal n)
| .const (.floatC q) => .ok (.floatVal q)
| .const _ => .error .specUnsupported
| .binop l o r => do
    let a ← specEval l
    let b ← specEval r
    specBin o a b
| .unaryop o e => do
    let a ← specEval e
    specUn o a
| .name _ => .error .specUnsupported
| .call _ _ => .error .specUnsupported
| .compare _ _ => .error .specUnsupported

/-- The integer nearest to `q` (ties upward; within the `1e-12`
windows the claims use, ties cannot occur). -/
def nearestInt (q : ℚ) : ℤ := ⌊q + 1/2⌋

/-- Output formatting per the spec: a real-valued result within
`1e-12` of its nearest integer is rendered as that integer, otherwise
with the host's default conversion. -/
def specRenderNum : PyNum → String
| .intVal n => pyIntRepr n
| .boolVal b => if b then "True" else "False"
| .floatVal q =>
    if |q - (nearestInt q : ℚ)| < nearIntEps then pyIntRepr (nearestInt q)
    else pyFloatRepr q

/-- Timezone extraction per the spec's words: lower-case; on a
"time"/"date" keyword scan the fixed table in order and emit the
matching cities, or the single fallback when none matched. -/
def find_timezones_spec (text : String) (default_tz : String) :
    List (String × String) :=
  let lower := pyLower text
  if containsSub ("time") lower || containsSub ("date") lower then
    let cityHits := CITY_TZ.filter (fun p => containsSub p.1 lower)
    if cityHits = [] then [("your timezone", default_tz)] else cityHits
  else []

/-- Expression extraction as amended: among the maximal math-class
runs of length at least three, the first containing a digit and an
operator, whitespace-stripped and then punctuation-stripped. -/
def find_expression_spec (text : String) : Option String :=
  (((mathRuns text).filter (fun r => 3 ≤ r.length)).find? (fun r =>
      r.any Char.isDigit &&
      r.any (fun ch => ch == '+' || ch == '-' || ch == '*' || ch == '/'))).map
    (fun r => pyStripChars (" .,:;!?".data) (pyStrip (String.mk r)))

/-!
The crewai calculator tools (`custom_tool.py`).
-/

/-- Digit-string value for `int(str)`: decimal digits with single
underscores allowed between digits. -/
def digitsVal : List Char → ℕ → Option ℕ
| [], acc => some acc
| c :: cs, acc =>
  if c.isDigit then digitsVal cs (acc * 10 + (c.toNat - 48))
  else if c == '_' then
    match cs with
    | d :: cs2 =>
        if d.isDigit then digitsVal cs2 (acc * 10 + (d.toNat - 48)) else none
    | [] => none
  else none

/-- Python `int(s)` on a string: optional surrounding whitespace,
optional sign, then a digit sequence (ASCII fragment; Unicode digits
and spaces are out of scope).  `none` models the `ValueError` the
constructor raises. -/
def pyInt (s : String) : Option ℤ :=
  match ((s.data.dropWhile isPySpace).reverse.dropWhile isPySpace).reverse with
  | '+' :: d :: rest =>
      if d.isDigit then (digitsVal (d :: rest) 0).map (fun n => (n : ℤ)) else none
  | '-' :: d :: rest =>
      if d.isDigit then (digitsVal (d :: rest) 0).map (fun n => -(n : ℤ)) else none
  | d :: rest =>
      if d.isDigit then (digitsVal (d :: rest) 0).map (fun n => (n : ℤ)) else none
  | [] => none

/-- `addition_tool._run`: `str(int(number1) + int(number2))`; an
unparsable argument raises (modelled by `Except.error`), nothing is
caught. -/
def addition_tool_run (number1 number2 : String) : Except String String :=
  match pyInt number1, pyInt number2 with
  | some a, some b => .ok (pyIntRepr (a + b))
  | _, _ => .error ("invalid literal for int() with base 10")

/-- `multiplication_tool._run`: `str(int(number1) * int(number2))`. -/
def multiplication_tool_run (number1 number2 : String) : Except String String :=
  match pyInt number1, pyInt number2 with
  | some a, some b => .ok (pyIntRepr (a * b))
  | _, _ => .error ("invalid literal for int() with base 10")

/-! Supporting lemmas. -/

/-- Is the value a `bool`? -/
def PyNum.isBool : PyNum → Bool
| .boolVal _ => true
| _ => false

theorem except_bind_ok {ε α β : Type} {x : Except ε α} {f : α → Except ε β}
    {v : β} (h : (x >>= f) = .ok v) : ∃ a, x = .ok a ∧ f a = .ok v := by
  cases x with
  | ok a => exact ⟨a, rfl, h⟩
  | error e => simp [Bind.bind, Except.bind] at h

theorem fmod_bounds_of_neg (a b : ℤ) (hb : b < 0) :
    b < Int.fmod a b ∧ Int.fmod a b ≤ 0 := by
  cases b with
  | ofNat k => rw [Int.ofNat_eq_natCast] at hb; omega
  | negSucc n =>
    rw [Int.negSucc_eq] at hb ⊢
    cases a with
    | ofNat m =>
      cases m with
      | zero =>
        have h0 : Int.fmod (Int.ofNat 0) (-((n : ℤ) + 1)) = 0 := by
          rw [← Int.negSucc_eq]; rfl
        rw [h0]
        omega
      | succ k =>
        have hk : k % (n + 1) < n + 1 := Nat.mod_lt _ (Nat.succ_pos n)
        have h0 : Int.fmod (Int.ofNat (k + 1)) (-((n : ℤ) + 1)) =
            Int.subNatNat (k % (n + 1)) n := by
          rw [← Int.negSucc_eq]; rfl
        rw [h0, Int.subNatNat_eq_coe]
        omega
    | negSucc m =>
      have hk : (m + 1) % (n + 1) < n + 1 := Nat.mod_lt _ (Nat.succ_pos n)
      have h0 : Int.fmod (Int.negSucc m) (-((n : ℤ) + 1)) =
          -(((m + 1) % (n + 1) : ℕ) : ℤ) := by
        rw [← Int.negSucc_eq]; rfl
      rw [h0]
      omega

theorem fdiv_eq_floorQ (a b : ℤ) (hb : b ≠ 0) :
    Int.fdiv a b = ⌊(a : ℚ) / (b : ℚ)⌋ := by
  have hbq : (b : ℚ) ≠ 0 := Int.cast_ne_zero.mpr hb
  have key : (Int.fmod a b : ℚ) + (b : ℚ) * (Int.fdiv a b : ℚ) = (a : ℚ) := by
    exact_mod_cast congrArg (fun z : ℤ => (z : ℚ)) (Int.fmod_add_fdiv a b)
  have expand : (a : ℚ) / (b : ℚ) =
      (Int.fmod a b : ℚ) / (b : ℚ) + (Int.fdiv a b : ℚ) := by
    field_simp
    linarith [key]
  have hx : 0 ≤ (Int.fmod a b : ℚ) / (b : ℚ) ∧
      (Int.fmod a b : ℚ) / (b : ℚ) < 1 := by
    rcases lt_or_gt_of_ne hb with hneg | hpos
    · obtain ⟨h1, h2⟩ := fmod_bounds_of_neg a b hneg
      rw [show (Int.fmod a b : ℚ) / (b : ℚ) =
          (-(Int.fmod a b : ℚ)) / (-(b : ℚ)) from (neg_div_neg_eq _ _).symm]
      have hb2 : (0 : ℚ) < -(b : ℚ) := by
        have : (b : ℚ) < 0 := by exact_mod_cast hneg
        linarith
      constructor
      · apply div_nonneg _ (le_of_lt hb2)
        have : (Int.fmod a b : ℚ) ≤ 0 := by exact_mod_cast h2
        linarith
      · rw [div_lt_one hb2]
        have : (b : ℚ) < (Int.fmod a b : ℚ) := by exact_mod_cast h1
        linarith
    · have h1 : (0 : ℚ) ≤ (Int.fmod a b : ℚ) := by
        exact_mod_cast Int.fmod_nonneg' a hpos
      have h2 : (Int.fmod a b : ℚ) < (b : ℚ) := by
        exact_mod_cast Int.fmod_lt_of_pos a hpos
      have hbq2 : (0 : ℚ) < (b : ℚ) := by exact_mod_cast hpos
      exact ⟨div_nonneg h1 (le_of_lt hbq2), (div_lt_one hbq2).mpr h2⟩
  symm
  rw [Int.floor_eq_iff]
  constructor
  · rw [expand]; linarith [hx.1]
  · rw [expand]; linarith [hx.2]

theorem fmod_eq_floorQ (a b : ℤ) (hb : b ≠ 0) :
    Int.fmod a b = a - b * ⌊(a : ℚ) / (b : ℚ)⌋ := by
  rw [← fdiv_eq_floorQ a b hb, Int.fmod_def]

theorem round_near (q : ℚ) (m : ℤ) (h : |q - (m : ℚ)| < 1/2) :
    pyRound q = m ∧ nearestInt q = m := by
  obtain ⟨h1, h2⟩ := abs_lt.mp h
  constructor
  · by_cases hq : (m : ℚ) ≤ q
    · have hf : ⌊q⌋ = m := by
        rw [Int.floor_eq_iff]
        refine ⟨hq, ?_⟩
        linarith
      have hr : q - ((⌊q⌋ : ℤ) : ℚ) < 1/2 := by rw [hf]; linarith
      simp only [pyRound]
      rw [if_pos hr, hf]
    · have hq2 : q < (m : ℚ) := lt_of_not_le hq
      have hf : ⌊q⌋ = m - 1 := by
        rw [Int.floor_eq_iff]
        constructor
        · push_cast; linarith
        · push_cast; linarith
      have hr1 : ¬ q - ((⌊q⌋ : ℤ) : ℚ) < 1/2 := by
        rw [hf]; push_cast; linarith
      have hr2 : (1:ℚ)/2 < q - ((⌊q⌋ : ℤ) : ℚ) := by
        rw [hf]; push_cast; linarith
      simp only [pyRound]
      rw [if_neg hr1, if_pos hr2, hf]
      omega
  · rw [nearestInt, Int.floor_eq_iff]
    constructor
    · linarith
    · linarith

theorem tagArith_isBool (a b : PyNum) (q : ℚ) :
    (tagArith a b q).isBool = false := by
  unfold tagArith
  split <;> rfl

theorem add_agree {a b v : PyNum} (ha : a.isBool = false)
    (hb : b.isBool = false) (h : specBin .add a b = .ok v) :
    pyAdd a b = .ok v := by
  cases a with
  | boolVal b0 => simp [PyNum.isBool] at ha
  | intVal n =>
    cases b with
    | boolVal b0 => simp [PyNum.isBool] at hb
    | intVal m =>
      simp only [specBin, tagArith, PyNum.isFloat, PyNum.toQ,
        Bool.or_self, Bool.false_or, if_false, Except.ok.injEq] at h
      subst h
      simp [pyAdd, PyNum.isFloat, PyNum.toZ, PyNum.toQ]
    | floatVal p =>
      simp only [specBin, tagArith, PyNum.isFloat, PyNum.toQ, Bool.or_true,
        if_true, Except.ok.injEq] at h
      subst h
      rfl
  | floatVal q =>
    cases b with
    | boolVal b0 => simp [PyNum.isBool] at hb
    | intVal m =>
      simp only [specBin, tagArith, PyNum.isFloat, PyNum.toQ, Bool.true_or,
        if_true, Except.ok.injEq] at h
      subst h
      rfl
    | floatVal p =>
      simp only [specBin, tagArith, PyNum.isFloat, PyNum.toQ, Bool.true_or,
        if_true, Except.ok.injEq] at h
      subst h
      rfl

theorem sub_agree {a b v : PyNum} (ha : a.isBool = false)
    (hb : b.isBool = false) (h : specBin .sub a b = .ok v) :
    pySub a b = .ok v := by
  cases a with
  | boolVal b0 => simp [PyNum.isBool] at ha
  | intVal n =>
    cases b with
    | boolVal b0 => simp [PyNum.isBool] at hb
    | intVal m =>
      simp only [specBin, tagArith, PyNum.isFloat, PyNum.toQ,
        Bool.or_self, if_false, Except.ok.injEq] at h
      subst h
      simp [pySub, PyNum.isFloat, PyNum.toZ, PyNum.toQ]
    | floatVal p =>
      simp only [specBin, tagArith, PyNum.isFloat, PyNum.toQ, Bool.or_true,
        if_true, Except.ok.injEq] at h
      subst h
      rfl
  | floatVal q =>
    cases b with
    | boolVal b0 => simp [PyNum.isBool] at hb
    | intVal m =>
      simp only [specBin, tagArith, PyNum.isFloat, PyNum.toQ, Bool.true_or,
        if_true, Except.ok.injEq] at h
      subst h
      rfl
    | floatVal p =>
      simp only [specBin, tagArith, PyNum.isFloat, PyNum.toQ, Bool.true_or,
        if_true, Except.ok.injEq] at h
      subst h
      rfl

theorem mult_agree {a b v : PyNum} (ha : a.isBool = false)
    (hb : b.isBool = false) (h : specBin .mult a b = .ok v) :
    pyMul a b = .ok v := by
  cases a with
  | boolVal b0 => simp [PyNum.isBool] at ha
  | intVal n =>
    cases b with
    | boolVal b0 => simp [PyNum.isBool] at hb
    | intVal m =>
      simp only [specBin, tagArith, PyNum.isFloat, PyNum.toQ,
        Bool.or_self, if_false, Except.ok.injEq] at h
      subst h
      simp [pyMul, PyNum.isFloat, PyNum.toZ, PyNum.toQ]
      rw [← Int.cast_mul, Int.floor_intCast]
    | floatVal p =>
      simp only [specBin, tagArith, PyNum.isFloat, PyNum.toQ, Bool.or_true,
        if_true, Except.ok.injEq] at h
      subst h
      rfl
  | floatVal q =>
    cases b with
    | boolVal b0 => simp [PyNum.isBool] at hb
    | intVal m =>
      simp only [specBin, tagArith, PyNum.isFloat, PyNum.toQ, Bool.true_or,
        if_true, Except.ok.injEq] at h
      subst h
      rfl
    | floatVal p =>
      simp only [specBin, tagArith, PyNum.isFloat, PyNum.toQ, Bool.true_or,
        if_true, Except.ok.injEq] at h
      subst h
      rfl

theorem div_agree {a b v : PyNum} (ha : a.isBool = false)
    (hb : b.isBool = false) (h : specBin .div a b = .ok v) :
    pyDiv a b = .ok v := by
  cases a with
  | boolVal b0 => simp [PyNum.isBool] at ha
  | intVal n =>
    cases b with
    | boolVal b0 => simp [PyNum.isBool] at hb
    | intVal m =>
      simp only [specBin, PyNum.toQ] at h
      by_cases hm : m = 0
      · subst hm; simp at h
      · rw [if_neg (by exact_mod_cast hm)] at h
        injection h with h1
        subst h1
        simp [pyDiv, PyNum.isFloat, PyNum.toZ, PyNum.toQ, hm]
    | floatVal p =>
      simp only [specBin, PyNum.toQ] at h
      by_cases hp : p = 0
      · subst hp; simp at h
      · rw [if_neg hp] at h
        injection h with h1
        subst h1
        simp [pyDiv, PyNum.isFloat, PyNum.toQ, hp]
  | floatVal q =>
    cases b with
    | boolVal b0 => simp [PyNum.isBool] at hb
    | intVal m =>
      simp only [specBin, PyNum.toQ] at h
      by_cases hm : ((m : ℤ) : ℚ) = 0
      · rw [if_pos hm] at h; simp at h
      · rw [if_neg hm] at h
        injection h with h1
        subst h1
        simp [pyDiv, PyNum.isFloat, PyNum.toQ, hm]
    | floatVal p =>
      simp only [specBin, PyNum.toQ] at h
      by_cases hp : p = 0
      · subst hp; simp at h
      · rw [if_neg hp] at h
        injection h with h1
        subst h1
        simp [pyDiv, PyNum.isFloat, PyNum.toQ, hp]

theorem floordiv_agree {a b v : PyNum} (ha : a.isBool = false)
    (hb : b.isBool = false) (h : specBin .floordiv a b = .ok v) :
    pyFloorDiv a b = .ok v := by
  cases a with
  | boolVal b0 => simp [PyNum.isBool] at ha
  | intVal n =>
    cases b with
    | boolVal b0 => simp [PyNum.isBool] at hb
    | intVal m =>
      simp only [specBin, tagArith, PyNum.toQ, PyNum.isFloat] at h
      by_cases hm : m = 0
      · subst hm; simp at h
      · rw [if_neg (by exact_mod_cast hm)] at h
        simp only [Bool.or_self, Except.ok.injEq] at h
        subst h
        simp [pyFloorDiv, PyNum.isFloat, PyNum.toZ, PyNum.toQ, hm,
          fdiv_eq_floorQ n m hm]
    | floatVal p =>
      simp only [specBin, tagArith, PyNum.toQ, PyNum.isFloat] at h
      by_cases hp : p = 0
      · subst hp; simp at h
      · rw [if_neg hp] at h
        simp only [Bool.or_true, Except.ok.injEq] at h
        subst h
        simp [pyFloorDiv, PyNum.isFloat, PyNum.toQ, hp]
  | floatVal q =>
    cases b with
    | boolVal b0 => simp [PyNum.isBool] at hb
    | intVal m =>
      simp only [specBin, tagArith, PyNum.toQ, PyNum.isFloat] at h
      by_cases hm : ((m : ℤ) : ℚ) = 0
      · rw [if_pos hm] at h; simp at h
      · rw [if_neg hm] at h
        simp only [Bool.true_or, Except.ok.injEq] at h
        subst h
        simp [pyFloorDiv, PyNum.isFloat, PyNum.toQ, hm]
    | floatVal p =>
      simp only [specBin, tagArith, PyNum.toQ, PyNum.isFloat] at h
      by_cases hp : p = 0
      · subst hp; simp at h
      · rw [if_neg hp] at h
        simp only [Bool.true_or, Except.ok.injEq] at h
        subst h
        simp [pyFloorDiv, PyNum.isFloat, PyNum.toQ, hp]

theorem mod_agree {a b v : PyNum} (ha : a.isBool = false)
    (hb : b.isBool = false) (h : specBin .mod a b = .ok v) :
    pyMod a b = .ok v := by
  cases a with
  | boolVal b0 => simp [PyNum.isBool] at ha
  | intVal n =>
    cases b with
    | boolVal b0 => simp [PyNum.isBool] at hb
    | intVal m =>
      simp only [specBin, tagArith, PyNum.toQ, PyNum.isFloat] at h
      by_cases hm : m = 0
      · subst hm; simp at h
      · rw [if_neg (by exact_mod_cast hm)] at h
        simp only [Bool.or_self, Except.ok.injEq] at h
        subst h
        simp only [pyMod, PyNum.isFloat, PyNum.toZ, Bool.or_self,
          Bool.false_eq_true, if_false, Except.ok.injEq, PyNum.intVal.injEq]
        rw [if_neg hm, fmod_eq_floorQ n m hm]
        simp only [Except.ok.injEq, PyNum.intVal.injEq]
        have : ((n : ℚ) - (m : ℚ) * ((⌊(n : ℚ) / (m : ℚ)⌋ : ℤ) : ℚ)) =
            (((n - m * ⌊(n : ℚ) / (m : ℚ)⌋ : ℤ) : ℤ) : ℚ) := by push_cast; ring
        rw [this, Int.floor_intCast]
    | floatVal p =>
      simp only [specBin, tagArith, PyNum.toQ, PyNum.isFloat] at h
      by_cases hp : p = 0
      · subst hp; simp at h
      · rw [if_neg hp] at h
        simp only [Bool.or_true, Except.ok.injEq] at h
        subst h
        simp [pyMod, PyNum.isFloat, PyNum.toQ, hp]
  | floatVal q =>
    cases b with
    | boolVal b0 => simp [PyNum.isBool] at hb
    | intVal m =>
      simp only [specBin, tagArith, PyNum.toQ, PyNum.isFloat] at h
      by_cases hm : ((m : ℤ) : ℚ) = 0
      · rw [if_pos hm] at h; simp at h
      · rw [if_neg hm] at h
        simp only [Bool.true_or, Except.ok.injEq] at h
        subst h
        simp [pyMod, PyNum.isFloat, PyNum.toQ, hm]
    | floatVal p =>
      simp only [specBin, tagArith, PyNum.toQ, PyNum.isFloat] at h
      by_cases hp : p = 0
      · subst hp; simp at h
      · rw [if_neg hp] at h
        simp only [Bool.true_or, Except.ok.injEq] at h
        subst h
        simp [pyMod, PyNum.isFloat, PyNum.toQ, hp]

theorem pow_agree {a b v : PyNum} (ha : a.isBool = false)
    (hb : b.isBool = false) (h : specBin .pow a b = .ok v) :
    pyPow a b = .ok v := by
  cases a with
  | boolVal b0 => simp [PyNum.isBool] at ha
  | intVal n =>
    cases b with
    | boolVal b0 => simp [PyNum.isBool] at hb
    | intVal m =>
      by_cases hm : 0 ≤ m
      · have hm2 : ¬ m < 0 := by omega
        simp [specBin, PyNum.toQ, PyNum.isFloat, hm2] at h
        subst h
        simp [pyPow, PyNum.isFloat, PyNum.toZ, hm]
      · have hm2 : m < 0 := by omega
        by_cases hn : n = 0
        · subst hn
          simp [specBin, PyNum.toQ, hm2] at h
        · simp [specBin, PyNum.toQ, PyNum.isFloat, hm2, hn] at h
          subst h
          simp [pyPow, PyNum.isFloat, PyNum.toZ, hm, hn]
    | floatVal p =>
      by_cases hd : p.den = 1
      · by_cases hc : n = 0 ∧ p < 0
        · simp [specBin, PyNum.toQ, hd, hc] at h
        · simp [specBin, PyNum.toQ, PyNum.isFloat, hd, hc] at h
          subst h
          simp [pyPow, PyNum.isFloat, PyNum.toQ, hd, hc]
      · simp [specBin, PyNum.toQ, hd] at h
  | floatVal q =>
    cases b with
    | boolVal b0 => simp [PyNum.isBool] at hb
    | intVal m =>
      by_cases hc : q = 0 ∧ m < 0
      · simp [specBin, PyNum.toQ, hc] at h
      · simp [specBin, PyNum.toQ, PyNum.isFloat, hc] at h
        subst h
        simp [pyPow, PyNum.isFloat, PyNum.toQ, hc]
    | floatVal p =>
      by_cases hd : p.den = 1
      · by_cases hc : q = 0 ∧ p < 0
        · simp [specBin, PyNum.toQ, hd, hc] at h
        · simp [specBin, PyNum.toQ, PyNum.isFloat, hd, hc] at h
          subst h
          simp [pyPow, PyNum.isFloat, PyNum.toQ, hd, hc]
      · simp [specBin, PyNum.toQ, hd] at h

theorem usub_agree {a v : PyNum} (ha : a.isBool = false)
    (h : specUn .usub a = .ok v) : pyNeg a = .ok v := by
  cases a with
  | boolVal b0 => simp [PyNum.isBool] at ha
  | intVal n =>
    simp [specUn, PyNum.isFloat, PyNum.toQ] at h
    subst h
    simp [pyNeg, PyNum.isFloat, PyNum.toZ]
  | floatVal q =>
    simp [specUn, PyNum.isFloat, PyNum.toQ] at h
    subst h
    simp [pyNeg, PyNum.isFloat, PyNum.toQ]

theorem uadd_agree {a v : PyNum} (ha : a.isBool = false)
    (h : specUn .uadd a = .ok v) : pyPos a = .ok v := by
  cases a with
  | boolVal b0 => simp [PyNum.isBool] at ha
  | intVal n =>
    simp [specUn] at h
    subst h
    simp [pyPos, PyNum.isFloat, PyNum.toZ]
  | floatVal q =>
    simp [specUn] at h
    subst h
    simp [pyPos, PyNum.isFloat, PyNum.toQ]

theorem specBin_to_code {o : BOp} {a b v : PyNum} (ha : a.isBool = false)
    (hb : b.isBool = false) (h : specBin o a b = .ok v) :
    ∃ f, _ALLOWED_OPS_bin o = some f ∧ f a b = .ok v := by
  cases o with
  | add => exact ⟨pyAdd, rfl, add_agree ha hb h⟩
  | sub => exact ⟨pySub, rfl, sub_agree ha hb h⟩
  | mult => exact ⟨pyMul, rfl, mult_agree ha hb h⟩
  | div => exact ⟨pyDiv, rfl, div_agree ha hb h⟩
  | floordiv => exact ⟨pyFloorDiv, rfl, floordiv_agree ha hb h⟩
  | mod => exact ⟨pyMod, rfl, mod_agree ha hb h⟩
  | pow => exact ⟨pyPow, rfl, pow_agree ha hb h⟩
  | bitor => simp [specBin] at h
  | bitxor => simp [specBin] at h
  | bitand => simp [specBin] at h
  | lshift => simp [specBin] at h
  | rshift => simp [specBin] at h

theorem specUn_to_code {o : UOp} {a v : PyNum} (ha : a.isBool = false)
    (h : specUn o a = .ok v) :
    ∃ f, _ALLOWED_OPS_un o = some f ∧ f a = .ok v := by
  cases o with
  | uadd => exact ⟨pyPos, rfl, uadd_agree ha h⟩
  | usub => exact ⟨pyNeg, rfl, usub_agree ha h⟩
  | invert => simp [specUn] at h
  | notOp => simp [specUn] at h

theorem specBin_ok_isBool {o : BOp} {a b v : PyNum}
    (h : specBin o a b = .ok v) : v.isBool = false := by
  cases o <;> simp only [specBin] at h <;> try (split_ifs at h)
  all_goals
    first
    | (injection h with h1; subst h1;
       first
       | exact tagArith_isBool _ _ _
       | rfl)
    | injection h

theorem specUn_ok_isBool {o : UOp} {a v : PyNum} (ha : a.isBool = false)
    (h : specUn o a = .ok v) : v.isBool = false := by
  cases o with
  | uadd =>
    simp only [specUn, Except.ok.injEq] at h
    subst h
    exact ha
  | usub =>
    simp only [specUn, Except.ok.injEq] at h
    subst h
    split <;> rfl
  | invert => simp [specUn] at h
  | notOp => simp [specUn] at h

theorem eval_agrees (t : Expr) : ∀ v : PyNum, specWhitelist t = true →
    specEval t = .ok v → _eval t = .ok v ∧ v.isBool = false := by
  induction t with
  | const c =>
    intro v hw hv
    cases c <;> simp [specWhitelist] at hw <;>
      simp only [specEval, Except.ok.injEq] at hv <;> subst hv <;>
      exact ⟨rfl, rfl⟩
  | binop l o r ihl ihr =>
    intro v hw hv
    simp only [specWhitelist, Bool.and_eq_true] at hw
    simp only [specEval] at hv
    obtain ⟨a, hla, hrest⟩ := except_bind_ok hv
    obtain ⟨b, hrb, hbin⟩ := except_bind_ok hrest
    obtain ⟨hevl, hal⟩ := ihl a hw.1.2 hla
    obtain ⟨hevr, hbl⟩ := ihr b hw.2 hrb
    obtain ⟨f, hf, hfab⟩ := specBin_to_code hal hbl hbin
    refine ⟨?_, specBin_ok_isBool hbin⟩
    simp only [_eval, hf, hevl, hevr]
    simpa using hfab
  | unaryop o e ih =>
    intro v hw hv
    simp only [specWhitelist, Bool.and_eq_true] at hw
    simp only [specEval] at hv
    obtain ⟨a, hea, hun⟩ := except_bind_ok hv
    obtain ⟨heva, hal⟩ := ih a hw.2 hea
    obtain ⟨f, hf, hfa⟩ := specUn_to_code hal hun
    refine ⟨?_, specUn_ok_isBool hal hun⟩
    simp only [_eval, hf, heva]
    simpa using hfa
  | name s =>
    intro v hw _
    simp [specWhitelist] at hw
  | call f n =>
    intro v hw _
    simp [specWhitelist] at hw
  | compare l r =>
    intro v hw _
    simp [specWhitelist] at hw

theorem formatVal_eq_specRenderNum (v : PyNum) :
    formatVal v = specRenderNum v := by
  cases v with
  | intVal n => rfl
  | boolVal b => rfl
  | floatVal q =>
    have heps : nearIntEps ≤ 1/2 := by norm_num [nearIntEps]
    simp only [formatVal, specRenderNum]
    by_cases h1 : |q - ((pyRound q : ℤ) : ℚ)| < nearIntEps
    · have hn := round_near q (pyRound q) (lt_of_lt_of_le h1 heps)
      rw [hn.2, if_pos h1]
    · by_cases h2 : |q - ((nearestInt q : ℤ) : ℚ)| < nearIntEps
      · have hn := round_near q (nearestInt q) (lt_of_lt_of_le h2 heps)
        rw [hn.1] at h1
        exact absurd h2 h1
      · rw [if_neg h1, if_neg h2]

/-- Decidable equality for `Except` (not provided by core). -/
def exceptDecEq {ε α : Type} [DecidableEq ε] [DecidableEq α] :
    (x y : Except ε α) → Decidable (x = y)
| .ok a, .ok b =>
    if h : a = b then .isTrue (by rw [h])
    else .isFalse (fun hh => h (by injection hh))
| .error e, .error f =>
    if h : e = f then .isTrue (by rw [h])
    else .isFalse (fun hh => h (by injection hh))
| .ok _, .error _ => .isFalse (fun hh => Except.noConfusion hh)
| .error _, .ok _ => .isFalse (fun hh => Except.noConfusion hh)

instance {ε α : Type} [DecidableEq ε] [DecidableEq α] :
    DecidableEq (Except ε α) := exceptDecEq

/-!
Claim theorems.  The `semireducible` attribute below undoes the
`irreducible` marking of the Batteries rational-arithmetic primitives so
that concrete instances can be settled by kernel evaluation (`decide`).
-/

attribute [local semireducible] Rat.add Rat.mul Rat.sub Rat.inv Rat.ofScientific

/-- C7: division or modulo with a zero divisor makes the evaluator fail
with a `ZeroDivisionError`, surfaced by `safe_calc` as a human-readable
result string (the total function `safe_calc` models the absence of any
crash path); in particular `evaluate("1/0")` and `evaluate("5%0")` both
report division by zero. -/
theorem c7_division_by_zero :
    calcCore "1/0" = .error (.divZero ("division by zero")) ∧
    safe_calc "1/0" = "Could not evaluate: division by zero" ∧
    calcCore "5%0" = .error (.divZero ("integer modulo by zero")) ∧
    safe_calc "5%0" = "Could not evaluate: integer modulo by zero" := by
  refine ⟨by decide, by decide, by decide, by decide⟩


/-- C1 (amended): the evaluator is a closed fixed-operator interpreter —
it computes only through the `_ALLOWED_OPS` table over numeric/boolean
constants; any tree containing a node outside that effective whitelist
(the `isinstance` check admits `bool` literals because the host's
`bool` is a subclass of `int`) makes the whole evaluation fail (with
`UnsupportedConstruct` when the offending node's failure is the one
surfaced); in particular `evaluate("x+1")` reports the
`UnsupportedConstruct` message. -/
theorem c1_closed_interpreter :
    (∀ t : Expr, acceptedNodes t = false → isFailure (_eval t) = true) ∧
    safe_calc "x+1" = "Could not evaluate: Unsupported expression." := by
  constructor
  · intro t
    induction t with
    | const c =>
      intro h
      cases c <;> simp [acceptedNodes] at h <;> rfl
    | binop l o r ihl ihr =>
      intro h
      cases hop : _ALLOWED_OPS_bin o with
      | none => simp [_eval, hop, isFailure]
      | some f =>
        rw [acceptedNodes, hop] at h
        simp only [Option.isSome_some, Bool.true_and, Bool.and_eq_false_iff] at h
        cases he : _eval l with
        | error err => simp [_eval, hop, he, Bind.bind, Except.bind, isFailure]
        | ok a =>
          cases h with
          | inl hl =>
            have hfl := ihl hl
            rw [he] at hfl
            simp [isFailure] at hfl
          | inr hr =>
            have hfr := ihr hr
            cases her : _eval r with
            | error err2 =>
              simp [_eval, hop, he, her, Bind.bind, Except.bind, isFailure]
            | ok b =>
              rw [her] at hfr
              simp [isFailure] at hfr
    | unaryop o e ih =>
      intro h
      cases hop : _ALLOWED_OPS_un o with
      | none => simp [_eval, hop, isFailure]
      | some f =>
        rw [acceptedNodes, hop] at h
        simp only [Option.isSome_some, Bool.true_and] at h
        have hfe := ih h
        cases he : _eval e with
        | error err => simp [_eval, hop, he, Bind.bind, Except.bind, isFailure]
        | ok a =>
          rw [he] at hfe
          simp [isFailure] at hfe
    | name s => intro _; rfl
    | call f n => intro _; rfl
    | compare l r => intro _; rfl
  · decide

/-- Witness for C1: the tree `ast.Name "x"` is outside the whitelist
and its evaluation fails. -/
theorem c1_witness :
    acceptedNodes (Expr.name ("x")) = false ∧
    isFailure (_eval (Expr.name ("x"))) = true :=
  ⟨rfl, c1_closed_interpreter.1 (Expr.name ("x")) rfl⟩

/-- Counterexample to C1 as stated: `"True+1"` parses to a tree
containing a boolean literal — a node outside the claimed whitelist —
yet `evaluate` succeeds with `"2"` instead of failing with
`UnsupportedConstruct`, because the host's `bool` passes the
`isinstance(value, (int, float))` test. -/
theorem c1_counterexample :
    pyParse ("True+1") =
      .ok (Expr.binop (.const (.boolC true)) .add (.const (.intC 1))) ∧
    specWhitelist
      (Expr.binop (.const (.boolC true)) .add (.const (.intC 1))) = false ∧
    safe_calc "True+1" = "2" ∧
    ("2" : String) ≠ "Could not evaluate: Unsupported expression." := by
  refine ⟨by decide, by decide, by decide, by decide⟩

/-- C2: on every expression inside the spec's grammar (and the length
bound) whose direct computation is defined, `safe_calc` returns exactly
the rendering of the value computed by the specification's reference
evaluator `specEval` — standard precedence comes from the shared
grammar, floor-division/modulo are the `⌊·⌋`-based conventions of
`specBin`, and near-integer reals render as integers per
`specRenderNum`. -/
theorem c2_eval_matches_direct_computation (s : String) (t : Expr)
    (v : PyNum)
    (hlen : (pyStrip s).length ≤ 200)
    (hp : pyParse (pyStrip s) = .ok t)
    (hg : specWhitelist t = true)
    (hv : specEval t = .ok v) :
    safe_calc s = specRenderNum v := by
  have hev := (eval_agrees t v hg hv).1
  simp only [safe_calc]
  rw [if_neg (by omega)]
  simp only [calcCore, hp, hev]
  exact formatVal_eq_specRenderNum v

/-- Witness for C2 at `"10/4"`: true division of integers is
real-valued and renders as `"2.5"`. -/
theorem c2_witness :
    safe_calc "10/4" = specRenderNum (.floatVal (5/2)) ∧
    specRenderNum (.floatVal (5/2)) = "2.5" :=
  ⟨c2_eval_matches_direct_computation "10/4"
      (.binop (.const (.intC 10)) .div (.const (.intC 4))) (.floatVal (5/2))
      (by decide) (by decide) (by decide) (by decide),
    by decide⟩


/-- C3: timezone extraction behaves exactly as specified — lower-case,
keyword gate, table-order city scan, single fallback — and the Tokyo
and London example returns exactly the two zone ids in table order. -/
theorem c3_find_timezones :
    (∀ text tz, find_requested_timezones text tz = find_timezones_spec text tz) ∧
    find_requested_timezones ("What time is it in Tokyo and London?") ("UTC") =
      [("london", "Europe/London"), ("tokyo", "Asia/Tokyo")] := by
  constructor
  · intro text tz
    unfold find_requested_timezones find_timezones_spec
    by_cases hkw : (containsSub ("time") (pyLower text) ||
        containsSub ("date") (pyLower text)) = true
    · cases hfil : CITY_TZ.filter (fun p => containsSub p.1 (pyLower text)) with
      | nil => simp [hkw, hfil]
      | cons x xs => simp [hkw, hfil]
    · simp [hkw]
  · decide

theorem pySpace_not_digit {c : Char} (h : isPySpace c = true) :
    c.isDigit = false := by
  simp only [isPySpace, Bool.or_eq_true, beq_iff_eq] at h
  rcases h with ((((h | h) | h) | h) | h) | h <;> subst h <;> decide

theorem pySpace_not_op {c : Char} (h : isPySpace c = true) :
    (c == '+' || c == '-' || c == '*' || c == '/') = false := by
  simp only [isPySpace, Bool.or_eq_true, beq_iff_eq] at h
  rcases h with ((((h | h) | h) | h) | h) | h <;> subst h <;> decide

theorem any_dropWhile_pySpace (f : Char → Bool)
    (hf : ∀ c, isPySpace c = true → f c = false) :
    ∀ l : List Char, (l.dropWhile isPySpace).any f = l.any f := by
  intro l
  induction l with
  | nil => rfl
  | cons c cs ih =>
    by_cases hc : isPySpace c = true
    · rw [List.dropWhile_cons, if_pos hc, ih, List.any_cons, hf c hc,
        Bool.false_or]
    · rw [List.dropWhile_cons, if_neg hc]

theorem any_pyStrip (f : Char → Bool)
    (hf : ∀ c, isPySpace c = true → f c = false) (l : List Char) :
    (pyStrip (String.mk l)).data.any f = l.any f := by
  show ((((l.dropWhile isPySpace).reverse.dropWhile
      isPySpace).reverse).any f) = l.any f
  rw [List.any_reverse, any_dropWhile_pySpace f hf, List.any_reverse,
    any_dropWhile_pySpace f hf]


/-- C4 (amended): expression extraction returns the first
whitespace-stripped maximal math-class run of length at least three
containing a digit and an operator, with the punctuation set
`" .,:;!?"` then stripped from both ends (trailing whitespace other
than a space can survive when uncovered by that second strip); the
`(12*7)/3` example extracts and evaluates to `"28"`. -/
theorem c4_extract_expression :
    (∀ text, extract_math_expression text = find_expression_spec text) ∧
    extract_math_expression ("What is (12*7)/3?") = some ("(12*7)/3") ∧
    safe_calc "(12*7)/3" = "28" := by
  refine ⟨?_, by decide, by decide⟩
  intro text
  unfold extract_math_expression find_expression_spec
  dsimp only
  rw [List.find?_map]
  have hfun : ((fun c : String => c.data.any Char.isDigit &&
        c.data.any (fun ch => ch == '+' || ch == '-' || ch == '*' || ch == '/')) ∘
      fun r : List Char => pyStrip (String.mk r)) =
      (fun r : List Char => r.any Char.isDigit &&
        r.any (fun ch => ch == '+' || ch == '-' || ch == '*' || ch == '/')) := by
    funext r
    simp only [Function.comp]
    rw [any_pyStrip _ (fun c hc => pySpace_not_digit hc),
      any_pyStrip _ (fun c hc => pySpace_not_op hc)]
  rw [hfun]
  cases hfind : ((mathRuns text).filter (fun r => 3 ≤ r.length)).find?
      (fun r : List Char => r.any Char.isDigit &&
        r.any (fun ch => ch == '+' || ch == '-' || ch == '*' || ch == '/')) with
  | none => rfl
  | some r => rfl

/-- Counterexample to C4 as stated: on `"9+\t."` the returned candidate
is `"9+\t"`, which still ends in a whitespace character (the tab), so
the result is not "trimmed of leading/trailing punctuation and
whitespace". -/
theorem c4_counterexample :
    extract_math_expression ("9+\t.") = some ("9+\t") ∧
    ("9+\t").data.getLast? = some '\t' ∧
    ('\t').isWhitespace = true := by
  refine ⟨by decide, by decide, by decide⟩


/-- Timezone phase of the dispatcher in isolation: its tool steps
depend only on `find_requested_timezones` and the clock. -/
def tzSteps (clock : String → String) (text tz : String) : List ToolStep :=
  (find_requested_timezones text tz).map
    (fun p => ToolStep.mk ("get_time") p.2 (clock p.2))

/-- Timezone phase of the dispatcher in isolation: reply sections. -/
def tzParts (clock : String → String) (text tz : String) : List String :=
  (find_requested_timezones text tz).map
    (fun p => clockEmoji ++ " **" ++ pyTitle p.1 ++ "**: " ++ clock p.2)

/-- Calculator phase in isolation: tool steps (depends only on
`extract_math_expression` and `safe_calc`). -/
def calcSteps (text : String) : List ToolStep :=
  match extract_math_expression text with
  | some e => [ToolStep.mk ("calculator") e (safe_calc e)]
  | none => []

/-- Calculator phase in isolation: reply sections. -/
def calcParts (text : String) : List String :=
  match extract_math_expression text with
  | some e => [calcEmoji ++ " **" ++ e ++ "** = `" ++ safe_calc e ++ "`"]
  | none => []

/-- Planner phase in isolation: tool steps (depends only on the plan
keyword check and `make_plan`). -/
def planSteps (text : String) : List ToolStep :=
  if planKeywords.any (fun k => containsSub k (pyLower text)) then
    [ToolStep.mk ("make_plan") text (make_plan text)]
  else []

/-- Planner phase in isolation: reply sections. -/
def planParts (text : String) : List String :=
  if planKeywords.any (fun k => containsSub k (pyLower text)) then
    [make_plan text]
  else []

/-- The sections of one turn, concatenated in pipeline order. -/
def sections (clock : String → String) (text tz : String) : List String :=
  tzParts clock text tz ++ calcParts text ++ planParts text

/-- C5: the reply is exactly the join of the pipeline-ordered sections
(timezone results, then the arithmetic result, then the plan, with the
help fallback when empty), and the recorded tool steps are exactly the
concatenation, in the same order, of the three phases computed
independently of one another — no step short-circuits another. -/
theorem c5_pipeline_order (clock : String → String) (text tz : String) :
    (run_agent clock text tz).2 =
      tzSteps clock text tz ++ calcSteps text ++ planSteps text ∧
    (run_agent clock text tz).1 =
      pyJoin ("\n\n")
        (if (sections clock text tz).isEmpty then [helpMsg]
         else sections clock text tz) := by
  constructor
  · rfl
  · rfl


theorem pyJoin_head (sep : String) (a : String) (l : List String) (c : Char)
    (ha : a.data.head? = some c) :
    (pyJoin sep (a :: l)).data.head? = some c := by
  cases l with
  | nil => exact ha
  | cons b bs =>
    show ((a ++ sep ++ pyJoin sep (b :: bs)).data).head? = some c
    simp [String.data_append, ha]

theorem section_elements (clock : String → String) (text tz : String) :
    ∀ x ∈ sections clock text tz,
      x.data.head? = some (Char.ofNat 0x1F552) ∨
      x.data.head? = some (Char.ofNat 0x1F9EE) ∨
      x.data.head? = some ('H') := by
  intro x hx
  simp only [sections, List.mem_append] at hx
  rcases hx with (hx | hx) | hx
  · left
    simp only [tzParts, List.mem_map] at hx
    obtain ⟨p, hp, rfl⟩ := hx
    simp [String.data_append, clockEmoji]
  · right; left
    cases hex : extract_math_expression text with
    | none => simp [calcParts, hex] at hx
    | some e =>
      simp only [calcParts, hex, List.mem_singleton] at hx
      subst hx
      simp [String.data_append, calcEmoji]
  · right; right
    by_cases hk : planKeywords.any (fun k => containsSub k (pyLower text)) = true
    · simp only [planParts, hk, if_true, List.mem_singleton] at hx
      subst hx
      simp [make_plan, String.data_append]
    · simp [planParts, hk] at hx

/-- C6: `run` always returns a populated reply (never an empty string,
never a hard failure — the dispatcher is a total function); when none
of the three heuristics produced a section, the reply is exactly the
fixed help message and no tool step was recorded; when at least one
section was produced, the reply is the join of those sections and the
help message is not among them. -/
theorem c6_total_reply (clock : String → String) (text tz : String) :
    (run_agent clock text tz).1 ≠ "" ∧
    (sections clock text tz = [] →
      (run_agent clock text tz).1 = helpMsg ∧
      (run_agent clock text tz).2 = []) ∧
    (sections clock text tz ≠ [] →
      (run_agent clock text tz).1 = pyJoin ("\n\n") (sections clock text tz) ∧
      helpMsg ∉ sections clock text tz) := by
  refine ⟨?_, ?_, ?_⟩
  · show pyJoin ("\n\n")
      (if (sections clock text tz).isEmpty then [helpMsg]
       else sections clock text tz) ≠ ""
    by_cases hs : (sections clock text tz).isEmpty
    · rw [if_pos hs]
      show helpMsg ≠ ""
      decide
    · rw [if_neg hs]
      cases hsec : sections clock text tz with
      | nil => rw [hsec] at hs; simp at hs
      | cons a l =>
        have hhead := section_elements clock text tz a
          (by rw [hsec]; exact List.mem_cons_self a l)
        rcases hhead with h | h | h <;>
          · intro heq
            have h2 := pyJoin_head ("\n\n") a l _ h
            rw [heq] at h2
            simp at h2
  · intro hnil
    constructor
    · show pyJoin ("\n\n")
        (if (sections clock text tz).isEmpty then [helpMsg]
         else sections clock text tz) = helpMsg
      rw [hnil]
      rfl
    · show tzSteps clock text tz ++ calcSteps text ++ planSteps text = []
      have hsplit := hnil
      rw [sections, List.append_eq_nil, List.append_eq_nil] at hsplit
      obtain ⟨⟨ht, hc⟩, hp⟩ := hsplit
      have ht2 : find_requested_timezones text tz = [] := by
        rw [tzParts] at ht
        exact List.map_eq_nil_iff.mp ht
      have hc2 : calcSteps text = [] := by
        cases hex : extract_math_expression text with
        | none => simp [calcSteps, hex]
        | some e => simp [calcParts, hex] at hc
      have hp2 : planSteps text = [] := by
        by_cases hk : planKeywords.any (fun k => containsSub k (pyLower text)) = true
        · simp [planParts, hk] at hp
        · simp [planSteps, hk]
      simp [tzSteps, ht2, hc2, hp2]
  · intro hne
    constructor
    · show pyJoin ("\n\n")
        (if (sections clock text tz).isEmpty then [helpMsg]
         else sections clock text tz) = pyJoin ("\n\n") (sections clock text tz)
      rw [if_neg (by simpa [List.isEmpty_iff] using hne)]
    · intro hmem
      have hh := section_elements clock text tz helpMsg hmem
      have hI : helpMsg.data.head? = some ('I') := by decide
      rcases hh with h | h | h <;>
        · rw [hI] at h
          injection h with h2
          exact absurd h2 (by decide)

/-- Witness for C6 at a no-tool input: on `"hello"` the reply is the
help message and the invocation list is empty. -/
theorem c6_witness :
    (run_agent (fun _ => "") "hello" "UTC").1 = helpMsg ∧
    (run_agent (fun _ => "") "hello" "UTC").2 = [] :=
  (c6_total_reply (fun _ => "") "hello" "UTC").2.1 (by decide)


theorem digitChar_isDigit (m : ℕ) (hm : m < 10) :
    (Char.ofNat (48 + m)).isDigit = true := by
  interval_cases m <;> decide

theorem natDigitsGo_head (fuel : ℕ) :
    ∀ (n : ℕ) (acc : List Char), 1 ≤ fuel →
      ∃ c l, natDigitsGo fuel n acc = c :: l ∧ c.isDigit = true := by
  induction fuel with
  | zero => intro n acc h; omega
  | succ f ih =>
    intro n acc _
    by_cases hn : n < 10
    · exact ⟨Char.ofNat (48 + n % 10), acc, by simp [natDigitsGo, hn],
        digitChar_isDigit _ (Nat.mod_lt _ (by norm_num))⟩
    · by_cases hfz : f = 0
      · subst hfz
        exact ⟨Char.ofNat (48 + n % 10), acc, by simp [natDigitsGo, hn],
          digitChar_isDigit _ (Nat.mod_lt _ (by norm_num))⟩
      · obtain ⟨c, l, hcl, hd⟩ :=
          ih (n / 10) (Char.ofNat (48 + n % 10) :: acc) (by omega)
        exact ⟨c, l, by simp [natDigitsGo, hn, hcl], hd⟩

theorem natRepr_head (n : ℕ) :
    ∃ c l, (natRepr n).data = c :: l ∧ c.isDigit = true := by
  obtain ⟨c, l, h, hd⟩ := natDigitsGo_head (n + 1) n [] (by omega)
  exact ⟨c, l, by simp [natRepr, h], hd⟩

theorem natRepr_ne_tooLong (n : ℕ) : natRepr n ≠ "Expression too long." := by
  intro heq
  obtain ⟨c, l, hd, hdig⟩ := natRepr_head n
  have h1 : (natRepr n).data.head? = some c := by rw [hd]; rfl
  rw [heq] at h1
  have h2 : ("Expression too long." : String).data.head? = some ('E') := by
    decide
  rw [h2] at h1
  injection h1 with h3
  rw [← h3] at hdig
  exact absurd hdig (by decide)

theorem pyIntRepr_ne_tooLong (n : ℤ) : pyIntRepr n ≠ "Expression too long." := by
  unfold pyIntRepr
  split
  · intro heq
    have h1 : (("-" ++ natRepr (-n).toNat).data).head? = some ('-') := by
      rw [String.data_append]
      rfl
    rw [heq] at h1
    exact absurd h1 (by decide)
  · exact natRepr_ne_tooLong _

theorem pyFloatRepr_ne_tooLong (q : ℚ) :
    pyFloatRepr q ≠ "Expression too long." := by
  unfold pyFloatRepr
  by_cases hq : q < 0
  · rw [if_pos hq]
    intro heq
    have h1 : ((("-" : String) ++ natRepr (⌊|q|⌋).toNat ++ "." ++
        (if (fracDigitsGo 17 (|q| - ((⌊|q|⌋ : ℤ) : ℚ))).isEmpty then "0"
         else String.mk (fracDigitsGo 17 (|q| - ((⌊|q|⌋ : ℤ) : ℚ))))).data).head? =
        some ('-') := by
      simp [String.data_append]
    rw [heq] at h1
    exact absurd h1 (by decide)
  · rw [if_neg hq]
    intro heq
    obtain ⟨c, l, hd, hdig⟩ := natRepr_head (⌊|q|⌋).toNat
    have h1 : ((("" : String) ++ natRepr (⌊|q|⌋).toNat ++ "." ++
        (if (fracDigitsGo 17 (|q| - ((⌊|q|⌋ : ℤ) : ℚ))).isEmpty then "0"
         else String.mk (fracDigitsGo 17 (|q| - ((⌊|q|⌋ : ℤ) : ℚ))))).data).head? =
        some c := by
      simp [String.data_append, hd]
    rw [heq] at h1
    have h2 : ("Expression too long." : String).data.head? = some ('E') := by
      decide
    rw [h2] at h1
    injection h1 with h3
    rw [← h3] at hdig
    exact absurd hdig (by decide)

theorem formatVal_ne_tooLong (v : PyNum) :
    formatVal v ≠ "Expression too long." := by
  cases v with
  | intVal n => exact pyIntRepr_ne_tooLong n
  | boolVal b => cases b <;> decide
  | floatVal q =>
    simp only [formatVal]
    split
    · exact pyIntRepr_ne_tooLong _
    · exact pyFloatRepr_ne_tooLong q

theorem errStr_ne_tooLong (m : String) :
    ("Could not evaluate: " ++ m) ≠ "Expression too long." := by
  intro heq
  have h1 : ((("Could not evaluate: " : String) ++ m).data).head? =
      some ('C') := by
    rw [String.data_append]
    rfl
  rw [heq] at h1
  exact absurd h1 (by decide)

/-- C8 (amended): the 200-character limit is applied to the STRIPPED
expression — `safe_calc` strips surrounding whitespace first, then
fails fast with the `TooLong` result string exactly when the stripped
input is longer than 200 characters; any stripped input of length at
most 200 is never rejected for length. -/
theorem c8_length_limit (s : String) :
    ((pyStrip s).length > 200 → safe_calc s = "Expression too long.") ∧
    ((pyStrip s).length ≤ 200 → safe_calc s ≠ "Expression too long.") := by
  constructor
  · intro h
    simp only [safe_calc]
    rw [if_pos h]
  · intro h
    simp only [safe_calc]
    rw [if_neg (by omega)]
    cases hc : calcCore (pyStrip s) with
    | ok v => exact formatVal_ne_tooLong v
    | error e => exact errStr_ne_tooLong (errMsg e)

set_option maxRecDepth 10000 in
/-- Witness for C8: a 201-digit stripped input is rejected, `"1+1"` is
not. -/
theorem c8_witness :
    safe_calc (String.mk (List.replicate 201 ('1'))) = "Expression too long." ∧
    safe_calc "1+1" ≠ "Expression too long." :=
  ⟨(c8_length_limit (String.mk (List.replicate 201 ('1')))).1 (by decide),
   (c8_length_limit "1+1").2 (by decide)⟩

set_option maxRecDepth 10000 in
/-- Counterexample to C8 as stated: an input of 203 characters — over
the claimed 200-character input limit — consisting of `"1+1"` and 200
trailing spaces is stripped before the length check, so `evaluate`
returns `"2"` instead of the `TooLong` message. -/
theorem c8_counterexample :
    ("1+1" ++ String.mk (List.replicate 200 (' '))).length = 203 ∧
    safe_calc ("1+1" ++ String.mk (List.replicate 200 (' '))) = "2" ∧
    ("2" : String) ≠ "Expression too long." := by
  refine ⟨by decide, by decide, by decide⟩


theorem streamlit_table_eq : Streamlit.CITY_TZ = CITY_TZ := rfl

theorem streamlit_eval_eq (t : Expr) : Streamlit._eval t = _eval t := by
  induction t with
  | const c => cases c <;> rfl
  | binop l o r ihl ihr =>
    have hop : Streamlit._ALLOWED_OPS_bin o = _ALLOWED_OPS_bin o := by
      cases o <;> rfl
    simp only [Streamlit._eval, _eval, hop, ihl, ihr]
  | unaryop o e ih =>
    have hop : Streamlit._ALLOWED_OPS_un o = _ALLOWED_OPS_un o := by
      cases o <;> rfl
    simp only [Streamlit._eval, _eval, hop, ih]
  | name s => rfl
  | call f n => rfl
  | compare l r => rfl

theorem streamlit_formatVal_eq (v : PyNum) :
    Streamlit.formatVal v = formatVal v := by
  cases v <;> rfl

theorem streamlit_safe_calc_eq (s : String) :
    Streamlit.safe_calc s = safe_calc s := by
  simp only [Streamlit.safe_calc, safe_calc, calcCore]
  cases hp : pyParse (pyStrip s) with
  | error m => simp [hp, errMsg]
  | ok t => simp [hp, streamlit_eval_eq, streamlit_formatVal_eq]

/-- C9 (amended): the duplicated computational logic is drift-free —
`safe_calc`, `extract_math_expression` and `find_requested_timezones`
return identical results in both copies for every input, and the two
dispatchers invoke the same tool sequence on every turn — but the
human-readable text constants are NOT: the streamlit copy's non-ASCII
characters are encoding-corrupted, so `make_plan` (and hence any reply
or invocation record containing its text, the help message or the
section emoji) differs between the copies. -/
theorem c9_shared_logic :
    (∀ s, Streamlit.safe_calc s = safe_calc s) ∧
    (∀ s, Streamlit.extract_math_expression s = extract_math_expression s) ∧
    (∀ s tz, Streamlit.find_requested_timezones s tz =
      find_requested_timezones s tz) ∧
    (∀ (clock : String → String) (s tz : String),
      ((Streamlit.run_agent clock s tz).2).map ToolStep.tool =
      ((run_agent clock s tz).2).map ToolStep.tool) := by
  refine ⟨streamlit_safe_calc_eq, fun s => rfl, fun s tz => rfl, ?_⟩
  intro clock s tz
  have hfind : Streamlit.find_requested_timezones s tz =
      find_requested_timezones s tz := rfl
  have hext : Streamlit.extract_math_expression s =
      extract_math_expression s := rfl
  simp only [Streamlit.run_agent, run_agent, hfind, hext]
  cases hex : extract_math_expression s with
  | none =>
    by_cases hk : planKeywords.any (fun k => containsSub k (pyLower s)) = true <;>
      simp [hex, hk, List.map_append, List.map_map, Function.comp]
  | some e =>
    by_cases hk : planKeywords.any (fun k => containsSub k (pyLower s)) = true <;>
      simp [hex, hk, List.map_append, List.map_map, Function.comp]

/-- Counterexample to C9 as stated: the two copies of `make_plan` (and
consequently of `run_agent`) return different strings on the same
input — the streamlit copy's literals are encoding-corrupted. -/
theorem c9_counterexample :
    Streamlit.make_plan "goal" ≠ make_plan "goal" ∧
    (Streamlit.run_agent (fun _ => "") "plan" "UTC").1 ≠
      (run_agent (fun _ => "") "plan" "UTC").1 := by
  refine ⟨by decide, by decide⟩


/-- C10: whenever both argument strings parse as integers, the crewai
addition and multiplication tools return the decimal string of the
exact integer sum/product; whenever either argument fails to parse,
both tools raise (modelled by the error branch) instead of returning a
result string. -/
theorem c10_crewai_tools (s1 s2 : String) (a b : ℤ)
    (h1 : pyInt s1 = some a) (h2 : pyInt s2 = some b) :
    addition_tool_run s1 s2 = .ok (pyIntRepr (a + b)) ∧
    multiplication_tool_run s1 s2 = .ok (pyIntRepr (a * b)) ∧
    ∀ t1 t2 : String, (pyInt t1 = none ∨ pyInt t2 = none) →
      isFailure (addition_tool_run t1 t2) = true ∧
      isFailure (multiplication_tool_run t1 t2) = true := by
  refine ⟨?_, ?_, ?_⟩
  · simp [addition_tool_run, h1, h2]
  · simp [multiplication_tool_run, h1, h2]
  · intro t1 t2 h
    rcases h with h | h
    · constructor <;>
        simp [addition_tool_run, multiplication_tool_run, h, isFailure]
    · cases hA : pyInt t1 with
      | none =>
        constructor <;>
          simp [addition_tool_run, multiplication_tool_run, hA, isFailure]
      | some x =>
        constructor <;>
          simp [addition_tool_run, multiplication_tool_run, hA, h, isFailure]

/-- Witness for C10: `12` and `34` give `"46"` and `"408"`, and a
non-numeric argument raises. -/
theorem c10_witness :
    addition_tool_run "12" "34" = .ok ("46") ∧
    multiplication_tool_run "12" "34" = .ok ("408") ∧
    isFailure (addition_tool_run "x" "1") = true :=
  ⟨(c10_crewai_tools "12" "34" 12 34 (by decide) (by decide)).1.trans
      (by decide),
   (c10_crewai_tools "12" "34" 12 34 (by decide) (by decide)).2.1.trans
      (by decide),
   ((c10_crewai_tools "12" "34" 12 34 (by decide) (by decide)).2.2 "x" "1"
      (Or.inl (by decide))).1⟩

end AgentDemo
